import Mathlib

/-!
Verification development for the chunked-upload engine of the Drive-uploads
repository.  The definitions below are a shallow embedding of
`client/src/utils/uploadUtils.js` (chunk planning, retry configuration,
network diagnostics) and `client/src/services/UploadManager.js`
(the `UploadManager` class and its `Semaphore`).

Modelling conventions:
* JavaScript numbers that are used as byte counts, indices and counters are
  embedded as `ℕ`; speed/latency samples and ratios as `ℚ`.
* `Math.sqrt` is embedded as `Real.sqrt`, so the two diagnostics functions
  built on it live in `ℝ`.
* The JS float comparison `failedChunks.size > chunks.length * 0.1`
  (integer `size`/`length`) coincides with the exact rational comparison
  `10 * size > length` for every realistic length: `length * 0.1` rounds to
  a double that lies in the same unit interval as `length / 10`, so the
  comparison against an integer is unchanged.  It is embedded that way.
* `file.slice` blobs, presigned-URL strings, wall-clock time and the
  progress/speed/ETA display fields are not referenced by any property
  below; the time-dependent fields are omitted from the session record and
  the blob is represented by its byte range.  Where the source reads a
  time-dependent value — the freshly recomputed `upload.speed` that
  `updateUploadProgress` pushes into the diagnostics window, and the
  `Date.now()` timestamp stored with it — the model takes that value as an
  explicit parameter, while the latency it pushes is the source's literal 0.
-/

namespace DriveUploads

/-- `UPLOAD_STATUS` constant object of `uploadUtils.js`. -/
inductive UPLOAD_STATUS where
  | PENDING
  | UPLOADING
  | PAUSED
  | COMPLETED
  | FAILED
  | CANCELLED
deriving DecidableEq

/-- Result of `generateChunkMetadata` (uploadUtils.js).  The `chunk` blob is
represented by its byte range `[start, endPos)`; `end` is a reserved word in
Lean, hence the field name `endPos`. -/
structure ChunkMeta where
  chunkIndex : ℕ
  start : ℕ
  endPos : ℕ
  size : ℕ
  isLast : Bool
deriving DecidableEq

/-- `generateChunkMetadata(file, chunkSize, chunkIndex)` from uploadUtils.js:
`start = chunkIndex * chunkSize`, `end = Math.min(start + chunkSize, file.size)`,
`size = end - start`, `isLast = (end === file.size)`. -/
def generateChunkMetadata (fileSize chunkSize chunkIndex : ℕ) : ChunkMeta :=
  let start := chunkIndex * chunkSize
  let endPos := min (start + chunkSize) fileSize
  { chunkIndex := chunkIndex
    start := start
    endPos := endPos
    size := endPos - start
    isLast := endPos == fileSize }

/-- `getRetryConfig` returns `{delay, maxAttempts, shouldRetry}`; the record
part is modelled here.  `jitter` stands for the sampled `Math.random() * 0.1`
value, passed in explicitly. -/
structure RetryConfig where
  delay : ℚ
  maxAttempts : ℕ
deriving DecidableEq

/-- `getRetryConfig(attempt)` from uploadUtils.js:
`delay = min(1000 * 2^attempt * (1 + jitter), 30000)`, `maxAttempts = 5`. -/
def getRetryConfig (attempt : ℕ) (jitter : ℚ) : RetryConfig :=
  { delay := min (1000 * 2 ^ attempt * (1 + jitter)) 30000
    maxAttempts := 5 }

/-- The argument of the `shouldRetry` closure returned by `getRetryConfig`:
`error.response` is the HTTP response (represented by its status code) when
one was received, and `error.code` is the client-side error code string. -/
structure JsError where
  response : Option ℕ
  code : Option String
deriving DecidableEq

/-- The `shouldRetry` closure from `getRetryConfig`:
`!error.response || error.response.status >= 500 ||
 error.response.status === 429 || error.code === 'NETWORK_ERROR'`. -/
def shouldRetry (error : JsError) : Bool :=
  match error.response with
  | none => true
  | some status =>
      decide (500 ≤ status) || decide (status = 429) ||
        decide (error.code = some "NETWORK_ERROR")

/-- One entry of `NetworkDiagnostics.samples`:
`{ speed, latency, timestamp: Date.now() }`. -/
structure Sample where
  speed : ℚ
  latency : ℚ
  timestamp : ℕ
deriving DecidableEq

/-- `NetworkDiagnostics.maxSamples`. -/
def maxSamples : ℕ := 10

/-- `NetworkDiagnostics.addSample`: push the new sample, then drop the oldest
one when the window exceeds `maxSamples`. -/
def addSample (samples : List Sample) (speed latency : ℚ) (t : ℕ) : List Sample :=
  let samples1 := samples ++ [⟨speed, latency, t⟩]
  if maxSamples < samples1.length then samples1.drop 1 else samples1

/-- `NetworkDiagnostics.getAverageSpeed`: 0 on an empty window, otherwise the
arithmetic mean of the speeds. -/
def getAverageSpeed (samples : List Sample) : ℚ :=
  if samples.length = 0 then 0
  else (samples.map Sample.speed).sum / samples.length

/-- `NetworkDiagnostics.getAverageLatency`: 0 on an empty window, otherwise
the arithmetic mean of the latencies. -/
def getAverageLatency (samples : List Sample) : ℚ :=
  if samples.length = 0 then 0
  else (samples.map Sample.latency).sum / samples.length

/-- The population variance computed inside `getLatencyVariance` before the
square root: `Σ (latency − avg)² / n`. -/
def latencyVarianceSq (samples : List Sample) : ℚ :=
  (samples.map fun s => (s.latency - getAverageLatency samples) ^ 2).sum /
    samples.length

/-- `NetworkDiagnostics.getLatencyVariance`: 0 with fewer than 2 samples,
otherwise `Math.sqrt` of the population variance (i.e. the standard
deviation, despite the name). -/
noncomputable def getLatencyVariance (samples : List Sample) : ℝ :=
  if samples.length < 2 then 0
  else Real.sqrt ((latencyVarianceSq samples : ℚ) : ℝ)

/-- `NetworkDiagnostics.getNetworkStability`:
`avgLatency > 0 ? 1 - (variance / avgLatency) : 0` where `variance` is the
value of `getLatencyVariance` (a standard deviation).  No clamping is
performed by the source. -/
noncomputable def getNetworkStability (samples : List Sample) : ℝ :=
  if 0 < getAverageLatency samples then
    1 - getLatencyVariance samples / ((getAverageLatency samples : ℚ) : ℝ)
  else 0

/-- `CHUNK_SIZE_OPTIONS[0].value` (256 KB), the minimum of the clamp used by
`calculateOptimalChunkSize`. -/
def chunkSizeMin : ℚ := 256 * 1024

/-- `CHUNK_SIZE_OPTIONS[CHUNK_SIZE_OPTIONS.length - 1].value` (16 MB), the
maximum of the clamp used by `calculateOptimalChunkSize`. -/
def chunkSizeMax : ℚ := 16 * 1024 * 1024

/-- `Math.round(Math.log2 x)` for a value already clamped to
`[256 KiB, 16 MiB]`, i.e. the unique `k ≤ 24` with
`2^(2k−1) ≤ x² < 2^(2k+1)` (round-half-up ties cannot occur at a rational
`x`, since `2^(k+1/2)` is irrational). -/
def log2RoundClamped (x : ℚ) : ℕ :=
  match (List.range 25).find? (fun k => decide (x ^ 2 < 2 ^ (2 * k + 1))) with
  | some k => k
  | none => 24

/-- `calculateOptimalChunkSize(networkSpeed, latency, fileSize)` from
uploadUtils.js: `base = 1 MiB`, `speedFactor = min(speed/1MiB, 8)`,
`latencyFactor = min(latency/100, 4)`,
candidate `= base · speedFactor · (1 + latencyFactor)`, clamped to
`[256 KiB, 16 MiB]` and then rounded to `2^round(log2 ·)`.  The result is an
exact power of two, hence returned as `ℕ`.  (`fileSize` is accepted and
ignored, exactly as in the source.) -/
def calculateOptimalChunkSize (networkSpeed latency : ℚ) (fileSize : ℕ) : ℕ :=
  let baseChunkSize : ℚ := 1024 * 1024
  let speedFactor := min (networkSpeed / (1024 * 1024)) 8
  let latencyFactor := min (latency / 100) 4
  let optimalSize := baseChunkSize * speedFactor * (1 + latencyFactor)
  let optimalSize := max chunkSizeMin (min optimalSize chunkSizeMax)
  2 ^ log2RoundClamped optimalSize

/-- One element of `upload.chunks` as built by
`UploadManager.calculateChunks`: the spread of `generateChunkMetadata` plus
`status`, `hash`, `uploadUrl`, `retryCount`. -/
structure ChunkState where
  chunkIndex : ℕ
  start : ℕ
  endPos : ℕ
  size : ℕ
  isLast : Bool
  status : UPLOAD_STATUS
  hash : Option String
  uploadUrl : Option String
  retryCount : ℕ
deriving DecidableEq

/-- `upload.options`: the subset of the manager options that the modelled
code reads (`chunkSize`, `concurrency`, `autoTune`). -/
structure UploadOptions where
  chunkSize : ℕ
  concurrency : ℕ
  autoTune : Bool
deriving DecidableEq

/-- A session record as created by `UploadManager.createUpload`.
`completedChunks`/`failedChunks` model the JS `Set`s as insertion-ordered
duplicate-free lists (see `setAdd`); the time-dependent display fields
(`progress`, `speed`, `eta`, `startTime`, `endTime`) and the async-populated
`fileHash`/`uploadId` are not referenced by any property below and are
omitted. -/
structure Upload where
  id : String
  fileSize : ℕ
  storageType : String
  status : UPLOAD_STATUS
  chunks : List ChunkState
  completedChunks : List ℕ
  failedChunks : List ℕ
  error : Option String
  options : UploadOptions
deriving DecidableEq

/-- `Set.prototype.add`: appends the element unless already present, keeping
the list duplicate-free so that its length is the JS `Set.size`. -/
def setAdd (s : List ℕ) (i : ℕ) : List ℕ :=
  if i ∈ s then s else s ++ [i]

/-- Replace the element at position `i` (in-place mutation of one array
entry). -/
def updateAt {α : Type} : List α → ℕ → (α → α) → List α
  | [], _, _ => []
  | a :: l, 0, f => f a :: l
  | a :: l, Nat.succ i, f => a :: updateAt l i f

/-- `Math.ceil(fileSize / chunkSize)` for natural operands (`chunkSize > 0`
in every use below). -/
def numChunks (fileSize chunkSize : ℕ) : ℕ :=
  (fileSize + chunkSize - 1) / chunkSize

/-- The element `UploadManager.calculateChunks` builds for one index: the
chunk metadata together with the fresh per-chunk upload state. -/
def chunkOf (fileSize chunkSize index : ℕ) : ChunkState :=
  let metadata := generateChunkMetadata fileSize chunkSize index
  { chunkIndex := metadata.chunkIndex
    start := metadata.start
    endPos := metadata.endPos
    size := metadata.size
    isLast := metadata.isLast
    status := UPLOAD_STATUS.PENDING
    hash := none
    uploadUrl := none
    retryCount := 0 }

/-- `UploadManager.calculateChunks`: `totalChunks = Math.ceil(size/chunkSize)`
and `upload.chunks = Array.from({length: totalChunks}, (_, i) => ...)`. -/
def calculateChunks (fileSize chunkSize : ℕ) : List ChunkState :=
  (List.range (numChunks fileSize chunkSize)).map (chunkOf fileSize chunkSize)

/-- `UploadManager.createUpload` (the synchronous state it builds; the hash
worker request and the map insertion are outside the session record). -/
def createUpload (uploadId : String) (fileSize : ℕ) (storageType : String)
    (options : UploadOptions) : Upload :=
  { id := uploadId
    fileSize := fileSize
    storageType := storageType
    status := UPLOAD_STATUS.PENDING
    chunks := calculateChunks fileSize options.chunkSize
    completedChunks := []
    failedChunks := []
    error := none
    options := options }

/-- The `Semaphore` class at the bottom of UploadManager.js.  `queue` counts
the parked `resolve` callbacks. -/
structure Semaphore where
  maxConcurrency : ℕ
  currentConcurrency : ℕ
  queue : ℕ
deriving DecidableEq

/-- `Semaphore.acquire`: resolve immediately while below `maxConcurrency`
(returning `true`), otherwise park the resolver on the queue. -/
def Semaphore.acquire (s : Semaphore) : Semaphore × Bool :=
  if s.currentConcurrency < s.maxConcurrency then
    ({ s with currentConcurrency := s.currentConcurrency + 1 }, true)
  else
    ({ s with queue := s.queue + 1 }, false)

/-- `Semaphore.release`: decrement, then resume one parked resolver if any
(returning `true` when one was resumed).  `UploadManager` never calls it. -/
def Semaphore.release (s : Semaphore) : Semaphore × Bool :=
  let s1 := { s with currentConcurrency := s.currentConcurrency - 1 }
  if 0 < s1.queue then
    ({ s1 with queue := s1.queue - 1,
               currentConcurrency := s1.currentConcurrency + 1 }, true)
  else (s1, false)

/-- The `semaphore.acquire().then(...)` loop of
`uploadChunksWithConcurrency`: each acquire that resolves immediately runs
`uploadChunk` for its chunk; the rest park on the semaphore queue and —
since nothing in the manager ever calls `release` — never run.  Returns the
final semaphore and the indices whose acquire resolved. -/
def acquireAll (sem : Semaphore) : List ℕ → Semaphore × List ℕ
  | [] => (sem, [])
  | i :: rest =>
      let step1 := sem.acquire
      let step2 := acquireAll step1.1 rest
      (step2.1, if step1.2 then i :: step2.2 else step2.2)

/-- The synchronous effect of `uploadChunk(upload, chunk)` on the chunk:
`chunk.status = UPLOAD_STATUS.UPLOADING` (hashing and posting to the upload
worker are asynchronous and surface later as complete/error events). -/
def uploadChunkStart (ch : ChunkState) : ChunkState :=
  { ch with status := UPLOAD_STATUS.UPLOADING }

/-- `UploadManager.uploadChunksWithConcurrency`: filter the pending chunks
(status `PENDING` and not in `completedChunks`), create a fresh
`Semaphore(concurrency)`, and start `uploadChunk` for every chunk whose
acquire resolves. -/
def uploadChunksWithConcurrency (upload : Upload) : Upload :=
  let pendingChunks := upload.chunks.filter fun ch =>
    decide (ch.status = UPLOAD_STATUS.PENDING) &&
      !(upload.completedChunks.contains ch.chunkIndex)
  let semaphore : Semaphore :=
    { maxConcurrency := upload.options.concurrency
      currentConcurrency := 0
      queue := 0 }
  let granted := (acquireAll semaphore (pendingChunks.map ChunkState.chunkIndex)).2
  { upload with
      chunks := upload.chunks.map fun ch =>
        if ch.chunkIndex ∈ granted then uploadChunkStart ch else ch }

section AutoTune

open Classical

/-- `UploadManager.autoTuneChunkSize`: read `getAverageSpeed` and
`getNetworkStability` from the diagnostics window (`samples` models
`this.networkDiagnostics.samples` at call time); when
`avgSpeed > 0 && stability > 0.7`, compute
`calculateOptimalChunkSize(avgSpeed, 0, upload.file.size)` and, when
`|optimal − chunkSize| > chunkSize * 0.5`, overwrite `options.chunkSize` and
rebuild the whole plan with `calculateChunks`.  (`0.7` and `0.5` are exact
here; the double nearest `0.7` differs by `< 6·10⁻¹⁷` and no property below
depends on that gap, while `0.5` is exactly representable.) -/
noncomputable def autoTuneChunkSize (samples : List Sample) (upload : Upload) : Upload :=
  let avgSpeed := getAverageSpeed samples
  if 0 < avgSpeed then
    if (7 / 10 : ℝ) < getNetworkStability samples then
      let optimalSize := calculateOptimalChunkSize avgSpeed 0 upload.fileSize
      if (upload.options.chunkSize : ℚ) * (1 / 2) <
          |(optimalSize : ℚ) - (upload.options.chunkSize : ℚ)| then
        { upload with
            options := { upload.options with chunkSize := optimalSize }
            chunks := calculateChunks upload.fileSize optimalSize }
      else upload
    else upload
  else upload

end AutoTune

/-- `UploadManager.updateUploadProgress`.  The recomputation of the display
fields `progress`/`speed`/`eta` is omitted (time-dependent, unreferenced
below); the freshly recomputed `upload.speed` and the `Date.now()` stamp are
therefore taken as the parameters `speed` and `t`.  What remains is exactly
the tail of the method: the push
`this.networkDiagnostics.addSample(upload.speed, 0)` — with the source's
literal latency 0 — immediately followed by the auto-tune consultation
`if (options.autoTune && completedChunks.size > 5) autoTuneChunkSize(upload)`,
which reads the window that now contains the just-pushed sample. -/
noncomputable def updateUploadProgress (samples : List Sample) (speed : ℚ) (t : ℕ)
    (upload : Upload) : Upload :=
  let samples1 := addSample samples speed 0 t
  if upload.options.autoTune && decide (5 < upload.completedChunks.length) then
    autoTuneChunkSize samples1 upload
  else upload

/-- `UploadManager.checkUploadCompletion`: when every chunk is completed,
mark the session `COMPLETED` (the `endTime` stamp and the async
`finalizeUpload` call are outside the modelled state). -/
def checkUploadCompletion (upload : Upload) : Upload :=
  if upload.completedChunks.length = upload.chunks.length then
    { upload with status := UPLOAD_STATUS.COMPLETED }
  else upload

/-- The body of `handleChunkUploadComplete` applied to the session that
`findUploadByChunkIndex` routed the event to: mark the chunk `COMPLETED`,
add its index to `completedChunks`, then `updateUploadProgress` and
`checkUploadCompletion`. -/
noncomputable def completeOn (samples : List Sample) (speed : ℚ) (t : ℕ)
    (upload : Upload) (chunkIndex : ℕ) : Upload :=
  let upload1 := { upload with
    chunks := updateAt upload.chunks chunkIndex fun ch =>
      { ch with status := UPLOAD_STATUS.COMPLETED }
    completedChunks := setAdd upload.completedChunks chunkIndex }
  checkUploadCompletion (updateUploadProgress samples speed t upload1)

/-- The session-failure message assembled by `handleChunkUploadError`. -/
def tooManyMsg (failedCount totalCount : ℕ) : String :=
  "Too many chunk failures: " ++ toString failedCount ++ "/" ++ toString totalCount

/-- The body of `handleChunkUploadError` applied to the routed session.
`chunk.retryCount++`; if `retryable && chunk.retryCount < 3` a retry of
`uploadChunk` is scheduled via `setTimeout` (second component `true`),
otherwise the chunk is marked `FAILED`, its index joins `failedChunks`, and
— when `failedChunks.size > chunks.length * 0.1`, embedded exactly as
`10 * size > length` — the whole session becomes `FAILED` with the
"Too many chunk failures" error.  Both paths end in
`updateUploadProgress`. -/
noncomputable def handleChunkErrorOn (samples : List Sample) (speed : ℚ) (t : ℕ)
    (upload : Upload) (chunkIndex : ℕ) (retryable : Bool) : Upload × Bool :=
  match upload.chunks[chunkIndex]? with
  | none => (upload, false)
  | some ch =>
      let retryCount := ch.retryCount + 1
      if retryable && decide (retryCount < 3) then
        (updateUploadProgress samples speed t
          { upload with
              chunks := updateAt upload.chunks chunkIndex fun c =>
                { c with retryCount := retryCount } }, true)
      else
        let failedChunks := setAdd upload.failedChunks chunkIndex
        let upload1 := { upload with
          chunks := updateAt upload.chunks chunkIndex fun c =>
            { c with retryCount := retryCount, status := UPLOAD_STATUS.FAILED }
          failedChunks := failedChunks }
        let upload2 :=
          if upload1.chunks.length < 10 * failedChunks.length then
            { upload1 with
                status := UPLOAD_STATUS.FAILED
                error := some (tooManyMsg failedChunks.length upload1.chunks.length) }
          else upload1
        (updateUploadProgress samples speed t upload2, false)

/-- `UploadManager.findUploadByChunkIndex`: walk `this.uploads.values()` in
insertion order and return the first session whose `chunks[chunkIndex]` is
an entry (i.e. `chunkIndex < chunks.length`). -/
def findUploadByChunkIndex : List Upload → ℕ → Option Upload
  | [], _ => none
  | u :: rest, chunkIndex =>
      if chunkIndex < u.chunks.length then some u
      else findUploadByChunkIndex rest chunkIndex

/-- `UploadManager.handleChunkUploadComplete({chunkIndex})`: route via
`findUploadByChunkIndex` and mutate the found session in place. -/
noncomputable def handleChunkUploadComplete (samples : List Sample) (speed : ℚ)
    (t : ℕ) : List Upload → ℕ → List Upload
  | [], _ => []
  | u :: rest, chunkIndex =>
      if chunkIndex < u.chunks.length then
        completeOn samples speed t u chunkIndex :: rest
      else u :: handleChunkUploadComplete samples speed t rest chunkIndex

/-- `UploadManager.handleChunkUploadError({chunkIndex, error, retryable})`:
route via `findUploadByChunkIndex` and mutate the found session in place. -/
noncomputable def handleChunkUploadError (samples : List Sample) (speed : ℚ)
    (t : ℕ) : List Upload → ℕ → Bool → List Upload
  | [], _, _ => []
  | u :: rest, chunkIndex, retryable =>
      if chunkIndex < u.chunks.length then
        (handleChunkErrorOn samples speed t u chunkIndex retryable).1 :: rest
      else u :: handleChunkUploadError samples speed t rest chunkIndex retryable

/-- `UploadManager.getUpload` on the insertion-ordered `uploads` map. -/
def getUpload (uploads : List Upload) (uploadId : String) : Option Upload :=
  uploads.find? fun u => u.id == uploadId

/-- `UploadManager.cancelUpload(uploadId)`: if the session exists, set its
status to `CANCELLED` — with no check of the current status and (per the
source's TODO) no abort of in-flight requests and no adapter abort call.
Map keys are unique, so updating every id-match is the in-place mutation of
the single `uploads.get(uploadId)` entry. -/
def cancelUpload (uploads : List Upload) (uploadId : String) : List Upload :=
  uploads.map fun u =>
    if u.id == uploadId then { u with status := UPLOAD_STATUS.CANCELLED } else u

/-- `UploadManager.startUpload` on the (found) session: set status
`UPLOADING` (the `startTime` stamp and the awaited `initializeChunkUploads`
URL assignment touch only omitted fields), then
`uploadChunksWithConcurrency`. -/
def startUpload (upload : Upload) : Upload :=
  uploadChunksWithConcurrency { upload with status := UPLOAD_STATUS.UPLOADING }

/-- `UploadManager.pauseUpload` on the (found) session: set status `PAUSED`
unconditionally. -/
def pauseUpload (upload : Upload) : Upload :=
  { upload with status := UPLOAD_STATUS.PAUSED }

/-- `UploadManager.resumeUpload` on the (found) session: only from `PAUSED`,
set status `UPLOADING` and dispatch again via
`uploadChunksWithConcurrency`. -/
def resumeUpload (upload : Upload) : Upload :=
  if upload.status = UPLOAD_STATUS.PAUSED then
    uploadChunksWithConcurrency { upload with status := UPLOAD_STATUS.UPLOADING }
  else upload

/-- `true` iff the session's chunk `i` exists and currently has status
`st`. -/
def chunkStatusIs (upload : Upload) (i : ℕ) (st : UPLOAD_STATUS) : Bool :=
  match upload.chunks[i]? with
  | some ch => decide (ch.status = st)
  | none => false

/-- The events that drive one session: the user-facing calls
`startUpload`/`pauseUpload`/`resumeUpload` and the two upload-worker
messages.  Worker messages are only ever emitted for a chunk whose
`uploadChunk` was actually dispatched, so `complete`/`errorEvt` apply only
to a chunk that is currently `UPLOADING`. -/
inductive SchedulerEvent where
  | start
  | pause
  | resume
  | complete (chunkIndex : ℕ)
  | errorEvt (chunkIndex : ℕ) (retryable : Bool)

/-- One step of the session under an event (single live session, so worker
events route to it; `samples` models the diagnostics window and
`speed`/`t` the time-dependent values pushed by `updateUploadProgress`). -/
noncomputable def stepEvent (samples : List Sample) (speed : ℚ) (t : ℕ)
    (u : Upload) : SchedulerEvent → Upload
  | SchedulerEvent.start => startUpload u
  | SchedulerEvent.pause => pauseUpload u
  | SchedulerEvent.resume => resumeUpload u
  | SchedulerEvent.complete i =>
      if chunkStatusIs u i UPLOAD_STATUS.UPLOADING then
        completeOn samples speed t u i
      else u
  | SchedulerEvent.errorEvt i r =>
      if chunkStatusIs u i UPLOAD_STATUS.UPLOADING then
        (handleChunkErrorOn samples speed t u i r).1
      else u

/-- Run a sequence of events from a session state. -/
noncomputable def run (samples : List Sample) (speed : ℚ) (t : ℕ) (u : Upload) :
    List SchedulerEvent → Upload
  | [] => u
  | e :: rest => run samples speed t (stepEvent samples speed t u e) rest

/-- The number of chunks whose status is `UPLOADING`. -/
def uploadingCount (upload : Upload) : ℕ :=
  (upload.chunks.filter fun ch => decide (ch.status = UPLOAD_STATUS.UPLOADING)).length

/-! ### Concrete session states used by the evaluations below -/

/-- A fresh 6-chunk session (6 MiB file, 1 MiB chunks, concurrency 3), as
built by `createUpload`. -/
def exampleUploadSix : Upload :=
  createUpload "u1" 6291456 "s3"
    { chunkSize := 1048576, concurrency := 3, autoTune := false }

/-- A started 20-chunk session (20 MiB file, 1 MiB chunks); `startUpload`
has dispatched the first `concurrency` chunks, so chunk 0 is `UPLOADING`. -/
def uploadTwentyStarted : Upload :=
  startUpload (createUpload "r" 20971520 "s3"
    { chunkSize := 1048576, concurrency := 3, autoTune := false })

/-- A live 15-chunk session (15 MiB file, 1 MiB chunks) with no failures
yet. -/
def uploadFifteenLive : Upload :=
  { createUpload "t" 15728640 "s3"
      { chunkSize := 1048576, concurrency := 3, autoTune := false } with
    status := UPLOAD_STATUS.UPLOADING }

/-- A full diagnostics window of ten identical samples: 8 MiB/s speed and a
steady 100 ms latency (so the latency standard deviation is 0 and the
stability score is 1). -/
def tenSamples : List Sample :=
  List.replicate 10 { speed := 8388608, latency := 100, timestamp := 0 }

/-- A live auto-tuned 12-chunk session (12 MiB file, 1 MiB chunks) in which
chunks 0–5 have already completed. -/
def uploadTwelveCompletedSix : Upload :=
  { createUpload "a" 12582912 "s3"
      { chunkSize := 1048576, concurrency := 3, autoTune := true } with
    status := UPLOAD_STATUS.UPLOADING
    chunks := (calculateChunks 12582912 1048576).map fun ch =>
      if ch.chunkIndex < 6 then { ch with status := UPLOAD_STATUS.COMPLETED } else ch
    completedChunks := [0, 1, 2, 3, 4, 5] }

/-- A diagnostics window whose latencies `[0, 0, 30]` have mean 10 and
population standard deviation `√200 > 10`. -/
def badSamples : List Sample :=
  [{ speed := 0, latency := 0, timestamp := 0 },
   { speed := 0, latency := 0, timestamp := 0 },
   { speed := 0, latency := 30, timestamp := 0 }]

/-- A session that has already reached the terminal status `COMPLETED`. -/
def completedSession : Upload :=
  { createUpload "done" 1048576 "s3"
      { chunkSize := 1048576, concurrency := 3, autoTune := false } with
    status := UPLOAD_STATUS.COMPLETED }

/-- A first (earlier-created) session; its plan has a chunk at index 0. -/
def uploadA : Upload :=
  createUpload "a" 100 "s3"
    { chunkSize := 1048576, concurrency := 3, autoTune := false }

/-- A second session created while `uploadA` is still active; its plan also
has a chunk at index 0. -/
def uploadB : Upload :=
  createUpload "b" 200 "s3"
    { chunkSize := 1048576, concurrency := 3, autoTune := false }

/-! ### Helper lemmas -/

lemma addSample_length_le (samples : List Sample) (speed latency : ℚ) (t : ℕ)
    (h : samples.length ≤ 10) :
    (addSample samples speed latency t).length ≤ 10 := by
  unfold addSample maxSamples
  dsimp only
  have hlen1 : (samples ++ [(⟨speed, latency, t⟩ : Sample)]).length
      = samples.length + 1 := by simp
  split_ifs with h1
  · rw [List.length_drop, hlen1]
    omega
  · rw [hlen1] at h1 ⊢
    omega

lemma addSample_mem_pushed (samples : List Sample) (speed latency : ℚ) (t : ℕ) :
    (⟨speed, latency, t⟩ : Sample) ∈ addSample samples speed latency t := by
  unfold addSample maxSamples
  dsimp only
  split_ifs with h1
  · rw [List.drop_append_of_le_length (by
      simp only [List.length_append, List.length_cons, List.length_nil] at h1
      omega)]
    exact List.mem_append.2 (Or.inr (List.mem_singleton.2 rfl))
  · exact List.mem_append.2 (Or.inr (List.mem_singleton.2 rfl))

lemma sum_sq_latency_ge (w : List Sample) (s0 : Sample) (hs0 : s0 ∈ w)
    (h0 : s0.latency = 0) :
    getAverageLatency w ^ 2
      ≤ (w.map fun s => (s.latency - getAverageLatency w) ^ 2).sum := by
  have hterm : (s0.latency - getAverageLatency w) ^ 2 = getAverageLatency w ^ 2 := by
    rw [h0]
    ring
  rw [← hterm]
  refine List.single_le_sum (fun x hx => ?_) _ (List.mem_map_of_mem _ hs0)
  obtain ⟨s, _, rfl⟩ := List.mem_map.1 hx
  positivity

lemma stability_with_zero_latency (w : List Sample) (s0 : Sample) (hs0 : s0 ∈ w)
    (h0 : s0.latency = 0) (hn : w.length ≤ 10) :
    getNetworkStability w < 7 / 10 := by
  unfold getNetworkStability getLatencyVariance
  split_ifs with hm hlen2
  · -- mean latency positive but fewer than 2 samples: then w = [s0] and the
    -- mean is s0's latency 0, a contradiction
    exfalso
    match w, hs0 with
    | [a], hs0 =>
      have ha : a = s0 := (List.mem_singleton.1 hs0).symm
      rw [ha] at hm
      simp only [getAverageLatency, List.length_cons, List.length_nil,
        List.map_cons, List.map_nil, List.sum_cons, List.sum_nil, h0] at hm
      norm_num at hm
    | a :: b :: l, hs0 =>
      simp only [List.length_cons] at hlen2
      omega
  · -- at least 2 samples: the zero-latency sample forces
    -- variance ≥ mean² / n ≥ mean² / 10, hence stddev/mean > 3/10
    have hlen : 2 ≤ w.length := by omega
    have hnposQ : (0 : ℚ) < (w.length : ℚ) := by
      exact_mod_cast Nat.lt_of_lt_of_le (by omega) hlen
    have hnleQ : ((w.length : ℚ)) ≤ 10 := by exact_mod_cast hn
    have hsum := sum_sq_latency_ge w s0 hs0 h0
    have hV : getAverageLatency w ^ 2 / 10 ≤ latencyVarianceSq w := by
      unfold latencyVarianceSq
      calc getAverageLatency w ^ 2 / 10
          ≤ getAverageLatency w ^ 2 / (w.length : ℚ) := by
            rw [div_le_div_iff₀ (by norm_num) hnposQ]
            nlinarith [sq_nonneg (getAverageLatency w)]
        _ ≤ (w.map fun s => (s.latency - getAverageLatency w) ^ 2).sum
              / (w.length : ℚ) := by
            gcongr
    have hmR : (0 : ℝ) < ((getAverageLatency w : ℚ) : ℝ) := by exact_mod_cast hm
    have hVR : ((getAverageLatency w : ℚ) : ℝ) ^ 2 / 10
        ≤ ((latencyVarianceSq w : ℚ) : ℝ) := by exact_mod_cast hV
    have h9 : (3 * ((getAverageLatency w : ℚ) : ℝ) / 10) ^ 2
        < ((latencyVarianceSq w : ℚ) : ℝ) := by nlinarith
    have hsq : 3 * ((getAverageLatency w : ℚ) : ℝ) / 10
        < Real.sqrt ((latencyVarianceSq w : ℚ) : ℝ) :=
      (Real.lt_sqrt (by positivity)).2 h9
    have hdiv : (3 : ℝ) / 10
        < Real.sqrt ((latencyVarianceSq w : ℚ) : ℝ)
            / ((getAverageLatency w : ℚ) : ℝ) := by
      rw [lt_div_iff₀ hmR]
      linarith
    linarith
  · norm_num

lemma numChunks_spec (N C : ℕ) (hC : 0 < C) :
    N ≤ numChunks N C * C ∧ numChunks N C * C ≤ N + C - 1 := by
  unfold numChunks
  rw [Nat.mul_comm]
  have h := Nat.div_add_mod (N + C - 1) C
  have h2 : (N + C - 1) % C < C := Nat.mod_lt _ hC
  set q := (N + C - 1) / C with hq
  set r := (N + C - 1) % C with hr
  set P := C * q with hP
  omega

lemma numChunks_pos (N C : ℕ) (hN : 0 < N) (hC : 0 < C) : 0 < numChunks N C := by
  unfold numChunks
  show 1 ≤ (N + C - 1) / C
  rw [Nat.le_div_iff_mul_le hC]
  omega

lemma calculateChunks_length (N C : ℕ) :
    (calculateChunks N C).length = numChunks N C := by
  simp [calculateChunks]

lemma calculateChunks_get (N C i : ℕ) (h : i < (calculateChunks N C).length) :
    (calculateChunks N C).get ⟨i, h⟩ = chunkOf N C i := by
  simp [calculateChunks, List.get_eq_getElem]

lemma chunkOf_start (N C i : ℕ) : (chunkOf N C i).start = i * C := rfl

lemma chunkOf_endPos (N C i : ℕ) : (chunkOf N C i).endPos = min (i * C + C) N := rfl

lemma chunkOf_size (N C i : ℕ) :
    (chunkOf N C i).size = min (i * C + C) N - i * C := rfl

lemma chunkOf_isLast (N C i : ℕ) :
    (chunkOf N C i).isLast = (min (i * C + C) N == N) := rfl

lemma chunk_sizes_sum (N C : ℕ) :
    ∀ m, ((List.range m).map fun i => (chunkOf N C i).size).sum = min (m * C) N := by
  intro m
  induction m with
  | zero => simp
  | succ m ih =>
    rw [List.range_succ, List.map_append, List.sum_append, ih]
    simp only [List.map_cons, List.map_nil, List.sum_cons, List.sum_nil, chunkOf_size]
    rw [Nat.succ_mul]
    set a := m * C with ha
    omega

lemma calculateChunks_sizes_sum (N C : ℕ) (hC : 0 < C) :
    ((calculateChunks N C).map ChunkState.size).sum = N := by
  unfold calculateChunks
  rw [List.map_map]
  rw [show (ChunkState.size ∘ chunkOf N C) = fun i => (chunkOf N C i).size from rfl]
  rw [chunk_sizes_sum N C (numChunks N C)]
  exact min_eq_right (numChunks_spec N C hC).1

lemma numChunks_cast_ceil (N C : ℕ) (hN : 0 < N) (hC : 0 < C) :
    (numChunks N C : ℤ) = ⌈(N : ℚ) / (C : ℚ)⌉ := by
  have hC' : (0 : ℚ) < (C : ℚ) := by exact_mod_cast hC
  have h := numChunks_spec N C hC
  have hcast : ((N + C - 1 : ℕ) : ℚ) = (N : ℚ) + (C : ℚ) - 1 := by
    rw [show N + C - 1 = N + C - 1 from rfl]
    rw [Nat.cast_sub (by omega : 1 ≤ N + C)]
    push_cast
    ring
  symm
  rw [Int.ceil_eq_iff]
  constructor
  · rw [lt_div_iff₀ hC']
    have h2 : ((numChunks N C * C : ℕ) : ℚ) ≤ ((N + C - 1 : ℕ) : ℚ) := by
      exact_mod_cast h.2
    rw [hcast] at h2
    have h3 : ((numChunks N C * C : ℕ) : ℚ) = (numChunks N C : ℚ) * (C : ℚ) := by
      push_cast
      ring
    rw [h3] at h2
    have h4 : ((numChunks N C : ℤ) : ℚ) = (numChunks N C : ℚ) := by push_cast; ring
    rw [h4]
    nlinarith
  · rw [div_le_iff₀ hC']
    have h1 : ((N : ℕ) : ℚ) ≤ ((numChunks N C * C : ℕ) : ℚ) := by exact_mod_cast h.1
    push_cast at h1 ⊢
    linarith

lemma updateAt_length {α : Type} (l : List α) (i : ℕ) (f : α → α) :
    (updateAt l i f).length = l.length := by
  induction l generalizing i with
  | nil => rfl
  | cons a t ih =>
    cases i with
    | zero => rfl
    | succ j => simp [updateAt, ih]

lemma autoTuneChunkSize_status (samples : List Sample) (u : Upload) :
    (autoTuneChunkSize samples u).status = u.status := by
  simp only [autoTuneChunkSize]
  split_ifs <;> rfl

lemma autoTuneChunkSize_error (samples : List Sample) (u : Upload) :
    (autoTuneChunkSize samples u).error = u.error := by
  simp only [autoTuneChunkSize]
  split_ifs <;> rfl

lemma updateUploadProgress_status (samples : List Sample) (speed : ℚ) (t : ℕ)
    (u : Upload) : (updateUploadProgress samples speed t u).status = u.status := by
  simp only [updateUploadProgress]
  split_ifs with h
  · exact autoTuneChunkSize_status _ u
  · rfl

lemma updateUploadProgress_error (samples : List Sample) (speed : ℚ) (t : ℕ)
    (u : Upload) : (updateUploadProgress samples speed t u).error = u.error := by
  simp only [updateUploadProgress]
  split_ifs with h
  · exact autoTuneChunkSize_error _ u
  · rfl

lemma autoTuneChunkSize_of_stability_lt (samples : List Sample) (u : Upload)
    (hst : getNetworkStability samples < 7 / 10) :
    autoTuneChunkSize samples u = u := by
  unfold autoTuneChunkSize
  dsimp only
  by_cases hsp : 0 < getAverageSpeed samples
  · rw [if_pos hsp, if_neg (not_lt.2 hst.le)]
  · rw [if_neg hsp]

lemma getLatencyVariance_nonneg (samples : List Sample) :
    0 ≤ getLatencyVariance samples := by
  unfold getLatencyVariance
  split_ifs
  · exact le_refl 0
  · exact Real.sqrt_nonneg _

lemma avgLatency_badSamples : getAverageLatency badSamples = 10 := by
  simp only [getAverageLatency, badSamples, List.map_cons, List.map_nil,
    List.sum_cons, List.sum_nil, List.length_cons, List.length_nil]
  norm_num

lemma varianceSq_badSamples : latencyVarianceSq badSamples = 200 := by
  unfold latencyVarianceSq
  rw [avgLatency_badSamples]
  simp only [badSamples, List.map_cons, List.map_nil, List.sum_cons,
    List.sum_nil, List.length_cons, List.length_nil]
  norm_num

lemma getUpload_cons (v : Upload) (rest : List Upload) (uploadId : String) :
    getUpload (v :: rest) uploadId
      = if v.id == uploadId then some v else getUpload rest uploadId := by
  unfold getUpload
  rw [List.find?_cons]
  cases hv : (v.id == uploadId) <;> simp

lemma cancelUpload_cons (v : Upload) (rest : List Upload) (uploadId : String) :
    cancelUpload (v :: rest) uploadId
      = (if v.id == uploadId then { v with status := UPLOAD_STATUS.CANCELLED } else v)
          :: cancelUpload rest uploadId := by
  unfold cancelUpload
  rw [List.map_cons]

/-! ### Claim theorems -/

/-- Claim C1.  In the source, the tuner is consulted in exactly one place —
`updateUploadProgress` — and on the line immediately before the consult the
method pushes `this.networkDiagnostics.addSample(upload.speed, 0)`, so at
consult time the (at most 10-sample) window always holds a latency-0
sample.  With such a sample in the window the stability score is strictly
below 0.7: if the mean latency is not positive the score is 0, and
otherwise the zero-latency sample alone forces
`variance ≥ mean²/n ≥ mean²/10`, i.e. `stddev/mean > 3/10`.  The
`stability > 0.7` gate therefore never passes, `chunk_size` is never
mutated, and no re-plan ever occurs: `updateUploadProgress` returns the
session unchanged, so in particular every completed and in-flight chunk
keeps its original `{start, end, size}` — the claim holds (vacuously in its
antecedent, and the consequent holds outright).  The hypothesis is the
window-size invariant maintained by `addSample`. -/
theorem updateUploadProgress_never_replans (samples : List Sample) (speed : ℚ)
    (t : ℕ) (u : Upload) (hlen : samples.length ≤ 10) :
    updateUploadProgress samples speed t u = u := by
  unfold updateUploadProgress
  dsimp only
  by_cases hg : (u.options.autoTune && decide (5 < u.completedChunks.length)) = true
  · rw [if_pos hg]
    exact autoTuneChunkSize_of_stability_lt _ u
      (stability_with_zero_latency _ ⟨speed, 0, t⟩
        (addSample_mem_pushed samples speed 0 t) rfl
        (addSample_length_le samples speed 0 t hlen))
  · rw [if_neg hg]

/-- Witness for C1 on the 12-chunk session with six completed chunks and
the steadiest possible prior window (ten identical 100 ms samples, the one
window that would pass the gate if the push were absent): the pushed
latency-0 sample caps the stability at 2/3 and the session is returned
unchanged. -/
theorem updateUploadProgress_never_replans_witness :
    tenSamples.length ≤ 10
    ∧ updateUploadProgress tenSamples 8388608 0 uploadTwelveCompletedSix
        = uploadTwelveCompletedSix :=
  ⟨by decide,
    updateUploadProgress_never_replans tenSamples 8388608 0 uploadTwelveCompletedSix
      (by decide)⟩

/-- Claim C2.  The claim bounds the number of simultaneously-`Uploading`
chunks by `concurrency` in every reachable state.  The code violates it:
each call of `uploadChunksWithConcurrency` creates a fresh `Semaphore` and
no permit is ever released, so after `start` (3 chunks in flight), `pause`,
`resume` — with no chunk having completed — the 6-chunk session with
concurrency 3 has all 6 chunks in status `Uploading`. -/
theorem concurrency_bound_violated_after_resume :
    exampleUploadSix.options.concurrency = 3
    ∧ uploadingCount (run [] 0 0 exampleUploadSix
        [SchedulerEvent.start, SchedulerEvent.pause, SchedulerEvent.resume]) = 6 :=
  ⟨rfl, rfl⟩

/-- Claim C3.  For `total_size > 0` and `chunk_size > 0`, `calculateChunks`
yields exactly `⌈total_size / chunk_size⌉` chunks; chunk `i` has
`start = i·chunk_size`, `end = min(start + chunk_size, total_size)`,
`size = end − start` and `isLast ↔ (end = total_size)`; the chunks
contiguously partition `[0, total_size)` (chunk 0 starts at 0, each next
chunk starts where the previous one ends, the last chunk ends at
`total_size`) and their sizes sum to `total_size`. -/
theorem calculateChunks_plan_partition (N C : ℕ) (hN : 0 < N) (hC : 0 < C) :
    ((calculateChunks N C).length : ℤ) = ⌈(N : ℚ) / (C : ℚ)⌉
    ∧ 0 < (calculateChunks N C).length
    ∧ (∀ i (h : i < (calculateChunks N C).length),
        ((calculateChunks N C).get ⟨i, h⟩).start = i * C
        ∧ ((calculateChunks N C).get ⟨i, h⟩).endPos = min (i * C + C) N
        ∧ ((calculateChunks N C).get ⟨i, h⟩).size
            = min (i * C + C) N - i * C
        ∧ (((calculateChunks N C).get ⟨i, h⟩).isLast = true
            ↔ ((calculateChunks N C).get ⟨i, h⟩).endPos = N))
    ∧ (∀ (h : 0 < (calculateChunks N C).length),
        ((calculateChunks N C).get ⟨0, h⟩).start = 0)
    ∧ (∀ i (h : i + 1 < (calculateChunks N C).length),
        ((calculateChunks N C).get ⟨i + 1, h⟩).start
          = ((calculateChunks N C).get ⟨i, by omega⟩).endPos)
    ∧ (∀ i (h : i < (calculateChunks N C).length),
        i + 1 = (calculateChunks N C).length →
          ((calculateChunks N C).get ⟨i, h⟩).endPos = N)
    ∧ ((calculateChunks N C).map ChunkState.size).sum = N := by
  have hlen := calculateChunks_length N C
  have hspec := numChunks_spec N C hC
  refine ⟨numChunks_cast_ceil N C hN hC ▸ hlen ▸ rfl, ?_, ?_, ?_, ?_, ?_, ?_⟩
  · rw [hlen]
    exact numChunks_pos N C hN hC
  · intro i h
    rw [calculateChunks_get]
    refine ⟨chunkOf_start N C i, chunkOf_endPos N C i, chunkOf_size N C i, ?_⟩
    rw [chunkOf_isLast, chunkOf_endPos, beq_iff_eq]
  · intro h
    rw [calculateChunks_get, chunkOf_start]
    omega
  · intro i h
    rw [calculateChunks_get, calculateChunks_get, chunkOf_start, chunkOf_endPos]
    have hn : i + 1 < numChunks N C := hlen ▸ h
    have h1 : (i + 1) * C ≤ (numChunks N C - 1) * C :=
      Nat.mul_le_mul_right C (by omega)
    have h2 : (numChunks N C - 1) * C ≤ numChunks N C * C - C := by
      rw [Nat.sub_mul, Nat.one_mul]
    have h3 : (i + 1) * C < N := by
      set P := numChunks N C * C with hP
      have h4 := hspec.2
      omega
    rw [min_eq_left (by rw [Nat.succ_mul] at h3; omega)]
    rw [Nat.succ_mul]
  · intro i h hlast
    rw [calculateChunks_get, chunkOf_endPos]
    have hi : i + 1 = numChunks N C := hlen ▸ hlast
    have h1 : N ≤ (i + 1) * C := by
      rw [hi]
      exact hspec.1
    rw [Nat.succ_mul] at h1
    omega
  · exact calculateChunks_sizes_sum N C hC

/-- Witness for C3 at the concrete plan `calculateChunks 5 2` (three chunks
`[0,2) [2,4) [4,5)`). -/
theorem calculateChunks_plan_partition_witness :
    0 < 5 ∧ 0 < 2
    ∧ ((calculateChunks 5 2).length : ℤ) = ⌈(5 : ℚ) / (2 : ℚ)⌉
    ∧ ((calculateChunks 5 2).map ChunkState.size).sum = 5 :=
  ⟨by norm_num, by norm_num,
    (calculateChunks_plan_partition 5 2 (by norm_num) (by norm_num)).1,
    (calculateChunks_plan_partition 5 2 (by norm_num) (by norm_num)).2.2.2.2.2.2⟩

/-- Claim C4.  The claim (and §4.1 of the spec) requires the plan for an
empty file to contain exactly one chunk of size 0 with `is_last = true`;
the code computes `Math.ceil(0 / chunkSize) = 0` and yields an empty plan,
so an empty-file session has no chunk whose completion could ever trigger
`checkUploadCompletion`. -/
theorem calculateChunks_empty_file : calculateChunks 0 1048576 = [] := rfl

/-- Claim C5.  The claim allows up to 5 upload attempts per chunk before
permanent failure.  The code's `handleChunkUploadError` hard-codes
`retryCount < 3`: after the first two retryable errors a retry is
scheduled, but the third error marks the chunk `FAILED` with
`retryCount = 3` — even though the code's own `getRetryConfig` declares
`maxAttempts = 5`. -/
theorem chunk_failed_after_three_attempts :
    (let s1 := handleChunkErrorOn [] 0 0 uploadTwentyStarted 0 true
     let s2 := handleChunkErrorOn [] 0 0 s1.1 0 true
     let s3 := handleChunkErrorOn [] 0 0 s2.1 0 true
     s1.2 = true ∧ s2.2 = true ∧ s3.2 = false
       ∧ (s2.1.chunks.head?.map ChunkState.status) = some UPLOAD_STATUS.UPLOADING
       ∧ (s3.1.chunks.head?.map ChunkState.status) = some UPLOAD_STATUS.FAILED
       ∧ (s3.1.chunks.head?.map ChunkState.retryCount) = some 3)
    ∧ (getRetryConfig 3 0).maxAttempts = 5 :=
  ⟨⟨rfl, rfl, rfl, rfl, rfl, rfl⟩, rfl⟩

/-- Counterexample for C6: the claim says an HTTP 408 error is retried, but
the code's `shouldRetry` closure answers `false` for a response with
status 408 (it only checks `≥ 500`, `429` and `NETWORK_ERROR`). -/
theorem shouldRetry_408_not_retried :
    shouldRetry { response := some 408, code := none } = false := rfl

/-- Claim C6 as amended: an error is classified retryable iff it has no
response (transport failure), or its status is ≥ 500, or its status is 429,
or its `code` is `'NETWORK_ERROR'`; 408 — like every other 4xx without that
code — is NOT retryable. -/
theorem shouldRetry_characterization (e : JsError) :
    shouldRetry e = true
      ↔ (e.response = none
          ∨ ∃ status, e.response = some status
              ∧ (500 ≤ status ∨ status = 429 ∨ e.code = some "NETWORK_ERROR")) := by
  obtain ⟨resp, code⟩ := e
  cases resp with
  | none => simp [shouldRetry]
  | some st =>
    simp only [shouldRetry, Bool.or_eq_true, decide_eq_true_eq]
    constructor
    · rintro ((h | h) | h)
      · exact Or.inr ⟨st, rfl, Or.inl h⟩
      · exact Or.inr ⟨st, rfl, Or.inr (Or.inl h)⟩
      · exact Or.inr ⟨st, rfl, Or.inr (Or.inr h)⟩
    · rintro (h | ⟨st2, hst, (h | h | h)⟩)
      · exact absurd h (by simp)
      all_goals
        injection hst with hst
        subst hst
      · exact Or.inl (Or.inl h)
      · exact Or.inl (Or.inr h)
      · exact Or.inr h

/-- Counterexample for C7: on a 15-chunk session the claim (threshold
`> ⌈0.1 · 15⌉ = 2`) predicts the session fails only at the third permanent
chunk failure, but the code compares `failed > 15 * 0.1 = 1.5` and marks
the session `FAILED` already at the second. -/
theorem threshold_trips_at_two_of_fifteen :
    (let u1 := (handleChunkErrorOn [] 0 0 uploadFifteenLive 0 false).1
     let u2 := (handleChunkErrorOn [] 0 0 u1 1 false).1
     u1.status = UPLOAD_STATUS.UPLOADING ∧ u2.status = UPLOAD_STATUS.FAILED
       ∧ u2.failedChunks.length = 2 ∧ u2.chunks.length = 15
       ∧ u2.error = some "Too many chunk failures: 2/15")
    ∧ ¬ ((2 : ℤ) > ⌈(15 : ℚ) / 10⌉) := by
  constructor
  · exact ⟨rfl, rfl, rfl, rfl, rfl⟩
  · have h : (⌈(15 : ℚ) / 10⌉ : ℤ) = 2 := by
      rw [Int.ceil_eq_iff]
      constructor <;> norm_num
    rw [gt_iff_lt, h]
    norm_num

/-- Claim C7 as amended: when a chunk-upload error is processed on a live
session, the session transitions to `Failed` (with the "Too many chunk
failures" error) exactly when the error is permanent (non-retryable, or the
third attempt) AND the resulting failed-chunk count exceeds one tenth of
the chunk count — the exact float comparison `failed > n_chunks * 0.1`,
i.e. `10 · failed > n_chunks`, with no ceiling. -/
theorem session_failure_threshold_iff (samples : List Sample) (speed : ℚ)
    (t : ℕ) (u : Upload) (i : ℕ) (r : Bool) (ch : ChunkState)
    (hst : u.status = UPLOAD_STATUS.UPLOADING)
    (hch : u.chunks[i]? = some ch) :
    ((handleChunkErrorOn samples speed t u i r).1.status = UPLOAD_STATUS.FAILED
      ↔ (¬ (r = true ∧ ch.retryCount + 1 < 3)
          ∧ u.chunks.length < 10 * (setAdd u.failedChunks i).length))
    ∧ ((handleChunkErrorOn samples speed t u i r).1.status = UPLOAD_STATUS.FAILED →
        (handleChunkErrorOn samples speed t u i r).1.error
          = some (tooManyMsg (setAdd u.failedChunks i).length u.chunks.length)) := by
  unfold handleChunkErrorOn
  split
  next heq =>
    rw [hch] at heq
    exact absurd heq (by simp)
  next ch2 heq =>
    rw [hch] at heq
    injection heq with heq
    subst heq
    by_cases hb : (r && decide (ch.retryCount + 1 < 3)) = true
    · rw [if_pos hb]
      rw [Bool.and_eq_true, decide_eq_true_eq] at hb
      simp only [updateUploadProgress_status, updateUploadProgress_error]
      refine ⟨⟨fun hcon => ?_, fun hrhs => absurd hb hrhs.1⟩, fun hcon => ?_⟩
      · rw [hst] at hcon
        exact absurd hcon (by decide)
      · rw [hst] at hcon
        exact absurd hcon (by decide)
    · rw [if_neg hb]
      rw [Bool.and_eq_true, decide_eq_true_eq] at hb
      dsimp only
      rw [updateAt_length]
      by_cases hth : u.chunks.length < 10 * (setAdd u.failedChunks i).length
      · rw [if_pos hth]
        simp only [updateUploadProgress_status, updateUploadProgress_error]
        exact ⟨⟨fun _ => ⟨hb, hth⟩, fun _ => trivial⟩, fun _ => trivial⟩
      · rw [if_neg hth]
        simp only [updateUploadProgress_status, updateUploadProgress_error]
        refine ⟨⟨fun hcon => ?_, fun hrhs => absurd hrhs.2 hth⟩, fun hcon => ?_⟩
        · rw [hst] at hcon
          exact absurd hcon (by decide)
        · rw [hst] at hcon
          exact absurd hcon (by decide)

/-- Witness for the amended C7 on the live 15-chunk session: a first
non-retryable error on chunk 0 does NOT fail the session, because
`15 < 10 · 1` is false. -/
theorem session_failure_threshold_iff_witness :
    uploadFifteenLive.status = UPLOAD_STATUS.UPLOADING
    ∧ uploadFifteenLive.chunks[0]? = some (chunkOf 15728640 1048576 0)
    ∧ ((handleChunkErrorOn [] 0 0 uploadFifteenLive 0 false).1.status
          = UPLOAD_STATUS.FAILED
        ↔ (¬ ((false : Bool) = true ∧ (chunkOf 15728640 1048576 0).retryCount + 1 < 3)
            ∧ uploadFifteenLive.chunks.length
                < 10 * (setAdd uploadFifteenLive.failedChunks 0).length)) :=
  ⟨rfl, rfl,
    (session_failure_threshold_iff [] 0 0 uploadFifteenLive 0 false
      (chunkOf 15728640 1048576 0) rfl rfl).1⟩

/-- Counterexample for C8: the code performs no clamping, so for the
latency samples `[0, 0, 30]` (mean 10, population standard deviation
`√200 ≈ 14.1`) the stability value `1 − √200 / 10` is negative — outside
the `[0, 1]` range the claim asserts. -/
theorem stability_not_clamped_below_zero : getNetworkStability badSamples < 0 := by
  unfold getNetworkStability getLatencyVariance
  rw [avgLatency_badSamples, varianceSq_badSamples,
    show badSamples.length = 3 from rfl]
  rw [if_pos (by norm_num : (0 : ℚ) < 10), if_neg (by norm_num : ¬ (3 < 2))]
  have h200 : (((200 : ℚ)) : ℝ) = 200 := by norm_num
  have h10 : (((10 : ℚ)) : ℝ) = 10 := by norm_num
  rw [h200, h10]
  have hs : (10 : ℝ) < Real.sqrt 200 :=
    (Real.lt_sqrt (by norm_num : (0 : ℝ) ≤ 10)).2 (by norm_num)
  have hd : (1 : ℝ) < Real.sqrt 200 / 10 := by
    rw [lt_div_iff₀ (by norm_num : (0 : ℝ) < 10)]
    linarith
  linarith

/-- Claim C8 as amended: `getNetworkStability` returns
`1 − latency_stddev / mean_latency` when the mean latency is positive and 0
otherwise, with NO clamping; the value is therefore always ≤ 1 but can be
negative (see the counterexample). -/
theorem getNetworkStability_le_one (samples : List Sample) :
    getNetworkStability samples ≤ 1 := by
  unfold getNetworkStability
  split_ifs with h
  · have hpos : (0 : ℝ) < ((getAverageLatency samples : ℚ) : ℝ) := by
      exact_mod_cast h
    have hdiv := div_nonneg (getLatencyVariance_nonneg samples) (le_of_lt hpos)
    linarith
  · norm_num

/-- Counterexample for C9: cancelling a session whose status is already
terminal (`COMPLETED`) is NOT a no-op — `cancelUpload` overwrites the
status with `CANCELLED`, changing the session record. -/
theorem cancel_mutates_completed_session :
    completedSession.status = UPLOAD_STATUS.COMPLETED
    ∧ getUpload (cancelUpload [completedSession] "done") "done"
        = some { completedSession with status := UPLOAD_STATUS.CANCELLED }
    ∧ cancelUpload [completedSession] "done" ≠ [completedSession] := by
  refine ⟨rfl, rfl, ?_⟩
  intro hcon
  have hstat := congrArg (fun l => (List.head? l).map Upload.status) hcon
  simp only [List.head?] at hstat
  exact absurd (Option.some.inj hstat) (by decide)

/-- Claim C9 as amended: `cancelUpload` on any existing session — terminal
or not — sets its status to `CANCELLED` and changes nothing else (and the
source makes no adapter abort call at all; aborting in-flight requests is
an unimplemented TODO); it is a state no-op only when the status is already
`CANCELLED`. -/
theorem cancelUpload_sets_cancelled (uploads : List Upload) (uploadId : String)
    (u : Upload) (h : getUpload uploads uploadId = some u) :
    getUpload (cancelUpload uploads uploadId) uploadId
      = some { u with status := UPLOAD_STATUS.CANCELLED } := by
  induction uploads with
  | nil => simp [getUpload] at h
  | cons v rest ih =>
    rw [getUpload_cons] at h
    rw [cancelUpload_cons]
    by_cases hv : (v.id == uploadId) = true
    · rw [if_pos hv] at h
      injection h with h
      subst h
      rw [if_pos hv, getUpload_cons]
      exact if_pos hv
    · rw [if_neg hv] at h
      rw [if_neg hv, getUpload_cons, if_neg hv]
      exact ih h

/-- Witness for the amended C9: cancelling the already-`COMPLETED` session
rewrites its status to `CANCELLED`. -/
theorem cancelUpload_sets_cancelled_witness :
    getUpload [completedSession] "done" = some completedSession
    ∧ getUpload (cancelUpload [completedSession] "done") "done"
        = some { completedSession with status := UPLOAD_STATUS.CANCELLED } :=
  ⟨rfl, cancelUpload_sets_cancelled [completedSession] "done" completedSession rfl⟩

/-- Claim C10.  Chunk completion/error events carry only a chunk index, and
`findUploadByChunkIndex` walks the uploads map in insertion order and
returns the first session whose chunk array has an entry at that index;
both handlers therefore mutate exactly that earliest session and leave
every later session — even one that also has a chunk at that index —
untouched.  (With `pre = []` and a single upload, `post = []`, routing is
correct.) -/
theorem chunk_event_routes_to_first_upload (samples : List Sample) (speed : ℚ)
    (t : ℕ) (pre post : List Upload) (u : Upload) (k : ℕ) (r : Bool)
    (hpre : ∀ v ∈ pre, v.chunks.length ≤ k) (hu : k < u.chunks.length) :
    findUploadByChunkIndex (pre ++ u :: post) k = some u
    ∧ handleChunkUploadComplete samples speed t (pre ++ u :: post) k
        = pre ++ completeOn samples speed t u k :: post
    ∧ handleChunkUploadError samples speed t (pre ++ u :: post) k r
        = pre ++ (handleChunkErrorOn samples speed t u k r).1 :: post := by
  induction pre with
  | nil =>
    simp only [List.nil_append]
    rw [findUploadByChunkIndex, handleChunkUploadComplete, handleChunkUploadError]
    rw [if_pos hu, if_pos hu, if_pos hu]
    exact ⟨rfl, rfl, rfl⟩
  | cons v vs ih =>
    have hv : ¬ (k < v.chunks.length) := by
      have := hpre v (by simp)
      omega
    have hrest : ∀ w ∈ vs, w.chunks.length ≤ k := fun w hw => hpre w (by simp [hw])
    obtain ⟨h1, h2, h3⟩ := ih hrest
    simp only [List.cons_append]
    rw [findUploadByChunkIndex, handleChunkUploadComplete, handleChunkUploadError]
    rw [if_neg hv, if_neg hv, if_neg hv]
    exact ⟨h1, by rw [h2], by rw [h3]⟩

/-- Witness for C10: with two simultaneously active sessions that both have
a chunk at index 0, a completion or error event for index 0 mutates the
earlier-created `uploadA` and leaves `uploadB` unchanged. -/
theorem chunk_event_routes_to_first_upload_witness :
    findUploadByChunkIndex [uploadA, uploadB] 0 = some uploadA
    ∧ handleChunkUploadComplete [] 0 0 [uploadA, uploadB] 0
        = [completeOn [] 0 0 uploadA 0, uploadB]
    ∧ handleChunkUploadError [] 0 0 [uploadA, uploadB] 0 true
        = [(handleChunkErrorOn [] 0 0 uploadA 0 true).1, uploadB] :=
  chunk_event_routes_to_first_upload [] 0 0 [] [uploadB] uploadA 0 true
    (by simp) (by decide)

end DriveUploads
